import Mathlib

/-!
Shallow embedding of the Gaello graph-actions context-retrieval engine
(`builder/worker.py`, `builder/ops.py`, `builder/parser.py`,
`queries/subimtor.py`) and proofs about the behaviours the specification
claims.

Modelling conventions:
* Python runtime errors are explicit: fallible steps return `Except PyError`.
* Python floats are modelled by `Rat`; the scores here are ratios of small
  natural numbers, and the guarded division of `ops.py` is modelled by
  `pyDiv`, which raises `zeroDivisionError` exactly when Python would.
* `functools.lru_cache` hashes the tuple of arguments before the wrapped
  body runs; `lru_cache_guard` models that step over `PyKey`, a shape type
  for the argument values this engine passes (strings are hashable, lists
  and dicts are not).
* The external collaborators (the spaCy pipeline and the Neo4j executor)
  are parameters: `GraphEnv.parse` is the value computed by the NLP parse
  of a text, `GraphEnv.exec` maps a submitted query string to the decoded
  records the store returns.  Thread-pool completion order is a parameter
  (`perm`), the standard shallow embedding of `as_completed`.
-/

/-- Kinds of Python runtime error this engine can raise. -/
inductive PyError where
  | typeError
  | attributeError
  | valueError
  | zeroDivisionError
  deriving DecidableEq

deriving instance DecidableEq for Except

/-- Shapes of Python values that appear as arguments of the memoized
operations (`worker.py` passes `str`, `None`, `list` and `dict` values). -/
inductive PyKey where
  | pynone : PyKey
  | str : String → PyKey
  | list : List PyKey → PyKey
  | dict : List (PyKey × PyKey) → PyKey

/-- Python hashability of the argument shapes above: `str` and `None` are
hashable, `list` and `dict` are not (`hash([])` raises `TypeError`). -/
def pyHashable : PyKey → Bool
  | .pynone => true
  | .str _ => true
  | .list _ => false
  | .dict _ => false

/-- Step performed by `functools.lru_cache` before the wrapped body runs:
the argument tuple is hashed; an unhashable argument raises `TypeError`. -/
def lru_cache_guard (args : List PyKey) : Except PyError Unit :=
  if args.all pyHashable then .ok () else .error .typeError

/-- Python division `a / b` on the naturals appearing in `ops.py`:
raises `ZeroDivisionError` when the denominator is `0`. -/
def pyDiv (a b : Nat) : Except PyError Rat :=
  if b = 0 then .error .zeroDivisionError else .ok ((a : Rat) / (b : Rat))

/-- Python `str.lower()` (the strings of this engine are ASCII): lower
each character of the string. -/
def pyLower (s : String) : String := String.mk (s.toList.map Char.toLower)

/-- Python substring test `needle in hay` on strings: `needle` occurs as a
contiguous run of `hay` (always true for the empty needle). -/
def pyIn (needle hay : String) : Bool :=
  (List.range (hay.toList.length + 1)).any
    (fun i => needle.toList.isPrefixOf (hay.toList.drop i))

/-- Value of `min(len(kw) for kw in kwds)` for a non-empty `kwds`
(`ops.py`, lines 38 and 42); `0` on `[]`, where the source never asks. -/
def minLen : List (List String) → Nat
  | [] => 0
  | kw :: rest => rest.foldl (fun m k => min m k.length) kw.length

/-- Embedding of `kwds_similarity` (`builder/ops.py`).  The input is the
list of keyword lists the varargs call supplies.  Set conversion is
modelled by `List.dedup`; the intersection keeps the members of the first
set that occur in every later list.  The division is the guarded `pyDiv`,
exactly as in the source: it only runs after the minimum raw length has
been checked to be non-zero. -/
def kwds_similarity (kwds : List (List String)) : Except PyError Rat :=
  if kwds.isEmpty then .ok 0
  else
    let x := kwds.tail.foldl (fun x kw => x.filter (fun s => kw.contains s))
      (kwds.headD []).dedup
    if kwds.length == 0 || minLen kwds == 0 then .ok 0
    else pyDiv x.length (minLen kwds)

/-- Left-to-right set conversion of the varargs: `set(None)` raises
`TypeError` at the first `None` argument, as in `ops.py` lines 29-34. -/
def setArgs : List (Option (List String)) →
    Except PyError (List (List String))
  | [] => .ok []
  | none :: _ => .error .typeError
  | some l :: rest =>
    match setArgs rest with
    | .error e => .error e
    | .ok ls => .ok (l :: ls)

/-- Python call layer of `kwds_similarity`: the callers of `worker.py` can
pass `None` where a keyword list is expected (the parser returns `None` on
contentless text); `set(None)` inside the scorer raises `TypeError`.  The
empty-varargs check fires before any set conversion, as in the source. -/
def kwds_similarity_args (args : List (Option (List String))) :
    Except PyError Rat :=
  if args.isEmpty then .ok 0
  else
    match setArgs args with
    | .error e => .error e
    | .ok ls => kwds_similarity ls

/-- MATCH_THRESHOLD of `worker.py` (0.4). -/
def MATCH_THRESHOLD : Rat := 2 / 5

/-- FILTER_THRESHOLD of `worker.py` (0.6). -/
def FILTER_THRESHOLD : Rat := 3 / 5

/-- FETCH_LIMIT of `worker.py`. -/
def FETCH_LIMIT : Nat := 100

/-- SEARCH_DEPTH of `worker.py`. -/
def SEARCH_DEPTH : Nat := 2

/-- Embedding of `GraphManipulator.match_nodes` (`worker.py` 88-101):
returns the id when the similarity of the two keyword sets is strictly
above `MATCH_THRESHOLD`, otherwise `None`; errors propagate from the
scorer (a `None` keyword set raises there). -/
def match_nodes (id : String) (node1_kwds node2_kwds : Option (List String)) :
    Except PyError (Option String) :=
  match kwds_similarity_args [node1_kwds, node2_kwds] with
  | .error e => .error e
  | .ok s => .ok (if MATCH_THRESHOLD < s then some id else none)

/-- Consumption loop of `parallel_search` (`worker.py` 144-149): walk the
candidate entries in completion order (`perm` indexes into `cands`), return
the first non-`None` result of `match_nodes`, `None` if every candidate
misses; an exception raised by a task re-raises at `fx.result()`. -/
def parallel_search_go (target : Option (List String))
    (cands : List (String × Option (List String))) :
    List Nat → Except PyError (Option String)
  | [] => .ok none
  | j :: rest =>
    match match_nodes (cands.getD j ("", none)).1 target
        (cands.getD j ("", none)).2 with
    | .error e => .error e
    | .ok (some m) => .ok (some m)
    | .ok none => parallel_search_go target cands rest

/-- Body of `parallel_search` (`worker.py` 127-149) given a completion
order `perm` of the submitted tasks. -/
def parallel_search_body (target : Option (List String))
    (cands : List (String × Option (List String))) (perm : List Nat) :
    Except PyError (Option String) :=
  parallel_search_go target cands perm

/-- Argument shapes of a `parallel_search` call: the target keyword list
(or `None`) and the dict of per-node keyword lists. -/
def searchArgKeys (target : Option (List String))
    (cands : List (String × Option (List String))) : List PyKey :=
  [match target with
   | none => PyKey.pynone
   | some l => PyKey.list (l.map PyKey.str),
   PyKey.dict (cands.map (fun c => (PyKey.str c.1,
     match c.2 with
     | none => PyKey.pynone
     | some l => PyKey.list (l.map PyKey.str))))]

/-- Call layer of `parallel_search` (`worker.py` 127): the function is
decorated with `lru_cache`, which hashes the raw `list` and `dict`
arguments before the body runs.  When the guard passes (it never does for
these shapes), the body would run with submission order as completion
order. -/
def parallel_search_call (target : Option (List String))
    (cands : List (String × Option (List String))) :
    Except PyError (Option String) :=
  match lru_cache_guard (searchArgKeys target cands) with
  | .error e => .error e
  | .ok _ => parallel_search_body target cands (List.range cands.length)

/-- Node of the content graph (spec data model: id, content, recency; the
timestamp only orders the store's answer and is left to the store model). -/
structure Node where
  id : String
  content : String
  deriving DecidableEq

/-- Shape of a node value as a Python dict argument. -/
def nodeKey (n : Node) : PyKey :=
  PyKey.dict [(PyKey.str "id", PyKey.str n.id),
              (PyKey.str "content", PyKey.str n.content)]

/-- Call layer of `parallel_extraction` (`worker.py` 103-125): the function
is decorated with `lru_cache`, which hashes the raw `list` of node dicts
before the body runs.  Were the guard to pass, the body's result
collection `fx.results()` would raise `AttributeError` (`Future` has no
attribute `results`; `worker.py` line 120). -/
def parallel_extraction_call (nodes : List Node) :
    Except PyError (List (String × Option (List String))) :=
  match lru_cache_guard [PyKey.list (nodes.map nodeKey)] with
  | .error e => .error e
  | .ok _ => .error .attributeError

/-- Association step of the `parallel_extraction` body (`worker.py`
114-125), modelled past the two call-layer defects above: `kwds` collects
the per-task results in completion order (`perm` indexes into `nodes`),
and line 122-123 then zips them BY INDEX against the nodes in submission
order, so `nodes[i].id` is paired with the keywords of `nodes[perm[i]]`. -/
def parallel_extraction_body (parse : String → Option (List String))
    (nodes : List Node) (perm : List Nat) :
    List (String × Option (List String)) :=
  let kwds := perm.map (fun j => parse (nodes.getD j ⟨"", ""⟩).content)
  List.zipWith (fun n k => (n.id, k)) nodes kwds

/-- Token of the external NLP pipeline (spec 6: text, alphabetic flag,
part-of-speech tag). -/
structure Token where
  text : String
  is_alpha : Bool
  pos : String
  deriving DecidableEq

/-- External NLP capability: tokenizer plus the model's stop-word set. -/
structure NLP where
  tok : String → List Token
  stop_words : List String

/-- Embedding of `Parser.minimize_tokens_count` (`builder/parser.py`
25-38): keep the alphabetic tokens whose lowercase form is not a stop
word and join their texts with no separator. -/
def minimize_tokens_count (nlp : NLP) (doc : List Token) : String :=
  String.join ((doc.filter (fun t =>
    t.is_alpha && !(nlp.stop_words.contains (pyLower t.text)))).map
      (fun t => t.text))

/-- Embedding of `Parser.get_nouns_only` (`builder/parser.py` 40-51). -/
def get_nouns_only (doc : List Token) : List String :=
  (doc.filter (fun t => t.pos == "NOUN")).map (fun t => t.text)

/-- Embedding of `Parser.parse` (`builder/parser.py` 53-69): `None` when
the minimized text is empty, else the nouns of the re-tokenized minimized
text. -/
def Parser.parse (nlp : NLP) (qx : String) : Option (List String) :=
  let doc := nlp.tok qx
  let min_qx := minimize_tokens_count nlp doc
  if min_qx = "" then none
  else some (get_nouns_only (nlp.tok min_qx))

/-- Embedding of `Submitor.fetch_most_recent_nodes`
(`queries/subimtor.py` 5-22): the Cypher text submitted to the store.  It
interpolates only the limit; there is no SKIP/offset clause. -/
def Submitor.fetch_most_recent_nodes (limit : Nat) : String :=
  s!"MATCH (n) RETURN n ORDER BY n.timestamp DESC LIMIT {limit}"

/-- Embedding of `Submitor.follow_path_from_root`
(`queries/subimtor.py` 24-39). -/
def Submitor.follow_path_from_root (id : String) (depth : Nat) : String :=
  s!"MATCH (root:Node \x7bid: \"{id}\"\x7d)-[*..{depth}]-(connected:Node) RETURN connected"

/-- Environment of `GraphManipulator`.  `parse` is the value of the NLP
keyword extraction for a text (the spaCy pipeline is external); `exec`
maps a submitted query string to the store's decoded records, where a
record is `none` when the row is empty/falsy and `some n` when it decodes
to node `n`; `extract` and `search` are the engine's two pooled stages as
parameters, so both their faithful call layers and their intended
semantics can be plugged in. -/
structure GraphEnv where
  parse : String → Option (List String)
  exec : String → List (Option Node)
  extract : List Node → Except PyError (List (String × Option (List String)))
  search : Option (List String) → List (String × Option (List String)) →
    Except PyError (Option String)

/-- Embedding of `GraphManipulator.cache_parse` (`worker.py` 70-86): the
`lru_cache` key here is the query string, which is hashable, so the call
reduces to the parser's value. -/
def cache_parse (env : GraphEnv) (qx : String) : Option (List String) :=
  env.parse qx

/-- Embedding of `GraphManipulator.fetch_top_nodes` (`worker.py` 151-167):
submit the most-recent-nodes query, return `None` on an empty answer,
else the nodes of the non-empty records. -/
def fetch_top_nodes (env : GraphEnv) (fetch_limit : Nat) :
    Option (List Node) :=
  let result := env.exec (Submitor.fetch_most_recent_nodes fetch_limit)
  if result.isEmpty then none
  else some (result.filterMap id)

/-- Embedding of `GraphManipulator.find_related_nodes` (`worker.py`
205-223): submit the path query, `None` on an empty answer, else the
records' `connected` entries (possibly `None` for an empty record). -/
def find_related_nodes (env : GraphEnv) (node_id : String) (depth : Nat) :
    Option (List (Option Node)) :=
  let result := env.exec (Submitor.follow_path_from_root node_id depth)
  if result.isEmpty then none
  else some result

/-- One-sided outcome of the search loop: the trace of query strings the
loop submitted to the store, and the final value (`none` when the given
fuel ran out before the loop broke, which models the source's unbounded
`while`). -/
abbrev SearchOut := List String × Option (Except PyError (Option String))

/-- Loop of `GraphManipulator.find_first_match` (`worker.py` 180-202).
The `offset` argument mirrors the local variable of the source: it is
advanced by `fetch_limit` on every non-matching round but flows into
nothing; every round submits `fetch_most_recent_nodes fetch_limit`.
Truthiness is Python's: an empty node list breaks the loop, an empty
string returned by the search stage does not count as a match. -/
def find_first_match_go (env : GraphEnv) (target_kwds : Option (List String))
    (fetch_limit : Nat) : Nat → Nat → List String → SearchOut
  | 0, _, trace => (trace, none)
  | fuel + 1, offset, trace =>
    match fetch_top_nodes env fetch_limit with
    | none =>
      (trace ++ [Submitor.fetch_most_recent_nodes fetch_limit],
       some (.ok none))
    | some [] =>
      (trace ++ [Submitor.fetch_most_recent_nodes fetch_limit],
       some (.ok none))
    | some (n :: ns) =>
      match env.extract (n :: ns) with
      | .error e =>
        (trace ++ [Submitor.fetch_most_recent_nodes fetch_limit],
         some (.error e))
      | .ok nodes_kwds =>
        match env.search target_kwds nodes_kwds with
        | .error e =>
          (trace ++ [Submitor.fetch_most_recent_nodes fetch_limit],
           some (.error e))
        | .ok (some m) =>
          if m = "" then
            find_first_match_go env target_kwds fetch_limit fuel
              (offset + fetch_limit)
              (trace ++ [Submitor.fetch_most_recent_nodes fetch_limit])
          else
            (trace ++ [Submitor.fetch_most_recent_nodes fetch_limit],
             some (.ok (some m)))
        | .ok none =>
          find_first_match_go env target_kwds fetch_limit fuel
            (offset + fetch_limit)
            (trace ++ [Submitor.fetch_most_recent_nodes fetch_limit])

/-- Embedding of `GraphManipulator.find_first_match` (`worker.py`
169-202): extract the request's keywords (no `None` check follows), then
run the paging loop from offset `0`. -/
def find_first_match (env : GraphEnv) (request : String)
    (fetch_limit : Nat) (fuel : Nat) : SearchOut :=
  find_first_match_go env (cache_parse env request) fetch_limit fuel 0 []

/-- Python `n.get("content")` on a record entry: `None.get` raises
`AttributeError`; a node dict yields its content. -/
def pyGetContent : Option Node → Except PyError String
  | none => .error .attributeError
  | some n => .ok n.content

/-- List comprehension `[n.get("content") for n in context]` (`worker.py`
line 249): evaluated left to right, raising at the first `None` entry. -/
def pyGetContents : List (Option Node) → Except PyError (List String)
  | [] => .ok []
  | n :: rest =>
    match pyGetContent n with
    | .error e => .error e
    | .ok c =>
      match pyGetContents rest with
      | .error e => .error e
      | .ok cs => .ok (c :: cs)

/-- Outcome of an assembly operation: `none` when the inner search loop
did not terminate within the given fuel, otherwise the Python value or
error. -/
abbrev CtxOut := Option (Except PyError (Option (List String)))

/-- Embedding of `GraphManipulator.make_unrestricted_context` (`worker.py`
226-249): anchor search with `FETCH_LIMIT`, `None` on a falsy match (also
on an empty-string id, Python truthiness), expansion with `SEARCH_DEPTH`,
`None` on a falsy expansion, else the contents of the related records. -/
def make_unrestricted_context (env : GraphEnv) (fuel : Nat)
    (request : String) : CtxOut :=
  match (find_first_match env request FETCH_LIMIT fuel).2 with
  | none => none
  | some (.error e) => some (.error e)
  | some (.ok none) => some (.ok none)
  | some (.ok (some top)) =>
    if top = "" then some (.ok none)
    else
      match find_related_nodes env top SEARCH_DEPTH with
      | none => some (.ok none)
      | some ctx =>
        if ctx.isEmpty then some (.ok none)
        else
          match pyGetContents ctx with
          | .error e => some (.error e)
          | .ok cs => some (.ok (some cs))

/-- Embedding of `GraphManipulator.make_restricted_context` (`worker.py`
251-268): the unrestricted context, `None` when it is falsy, else the
strings that contain no restricted word — the comparison lowercases the
CONTENT only, `word in c.lower()`, the word is used verbatim — and `None`
when nothing survives. -/
def make_restricted_context (env : GraphEnv) (fuel : Nat) (request : String)
    (restricted_words : List String) : CtxOut :=
  match make_unrestricted_context env fuel request with
  | none => none
  | some (.error e) => some (.error e)
  | some (.ok none) => some (.ok none)
  | some (.ok (some ctx)) =>
    if ctx.isEmpty then some (.ok none)
    else
      let restricted_context := ctx.filter (fun c =>
        !(restricted_words.any (fun word => pyIn word (pyLower c))))
      if restricted_context.isEmpty then some (.ok none)
      else some (.ok (some restricted_context))

/-- Embedding of `GraphManipulator.filter_context_by_relevance`
(`worker.py` 270-290).  Line 286 calls `self.match_nodes(request_keywords,
document_keywords)`: `match_nodes` is a static method with THREE required
parameters `(id, node1_kwds, node2_kwds)`, so the call raises `TypeError`
(missing required positional argument) on the first document.  A `None`
context raises `TypeError` already at `for document in context`.  Only an
empty context list completes the loop and returns the empty filtered
list. -/
def filter_context_by_relevance (parse : String → Option (List String))
    (request : String) (context : Option (List String)) :
    Except PyError (List String) :=
  let _request_keywords := parse request
  match context with
  | none => .error .typeError
  | some [] => .ok []
  | some (_ :: _) => .error .typeError

/-- Embedding of `GraphManipulator.context` (`worker.py` 292-318): the
three assembly modes, a `ValueError` on any other mode string.  In
filtered mode the possibly-`None` unrestricted context is passed straight
to the relevance filter. -/
def GraphManipulator.context (env : GraphEnv) (fuel : Nat) (request : String)
    (mode : String) (restricted_words : List String) : CtxOut :=
  if mode = "unrestricted" then make_unrestricted_context env fuel request
  else if mode = "restricted" then
    make_restricted_context env fuel request restricted_words
  else if mode = "filtered" then
    match make_unrestricted_context env fuel request with
    | none => none
    | some (.error e) => some (.error e)
    | some (.ok ctx) =>
      match filter_context_by_relevance (cache_parse env) request ctx with
      | .error e => some (.error e)
      | .ok l => some (.ok (some l))
  else some (.error .valueError)

/-- Faithful environment: the pooled stages are the memoized call layers
of the source. -/
def pyEnv (parse : String → Option (List String))
    (exec : String → List (Option Node)) : GraphEnv :=
  { parse := parse, exec := exec,
    extract := parallel_extraction_call,
    search := parallel_search_call }

/-- Environment whose pooled stages carry the spec-intended semantics
(full-map extraction associated by id, matching in submission order), used
to observe behaviours that sit beyond the call-layer defects of the
faithful stages. -/
def intendedEnv (parse : String → Option (List String))
    (exec : String → List (Option Node)) : GraphEnv :=
  { parse := parse, exec := exec,
    extract := fun nodes => .ok (nodes.map (fun n => (n.id, parse n.content))),
    search := fun target cands =>
      parallel_search_body target cands (List.range cands.length) }

/-- Degenerate but well-typed value of the external parse: every text's
keyword list is the text itself. -/
def parseSelf : String → Option (List String) := fun s => some [s]

/-- Store whose every query answers with one node whose content shares no
keyword with any request under `parseSelf`. -/
def execSingle : String → List (Option Node) := fun _ => [some ⟨"n1", "zzz"⟩]

/-- Store whose every query answers with no records (exhausted store). -/
def execEmptyStore : String → List (Option Node) := fun _ => []

/-- NLP value on the request "the of and": three alphabetic stop-word
tokens, so the minimized text is empty and the parser answers `None`. -/
def nlpStop : NLP :=
  { tok := fun s =>
      if s = "the of and" then
        [⟨"the", true, "DET"⟩, ⟨"of", true, "ADP"⟩, ⟨"and", true, "CCONJ"⟩]
      else [],
    stop_words := ["the", "of", "and"] }

/-- Store for the restricted-mode scenario: the recency page holds the
anchor seed node, the path expansion holds one node whose content is
"I like apples". -/
def execApples : String → List (Option Node) := fun q =>
  if q = Submitor.fetch_most_recent_nodes FETCH_LIMIT then
    [some ⟨"n1", "seed"⟩]
  else [some ⟨"n2", "I like apples"⟩]

/-- Parse value under which the seed node matches any request. -/
def parseApples : String → Option (List String) := fun _ => some ["apples"]

/-- Environment of the restricted-mode scenario: the pooled stages carry
intended semantics (the faithful call layers raise, see the caching
defect), with a matching stage that reports the seed node, so the
pipeline reaches the restricted-word filter. -/
def envApples : GraphEnv :=
  { parse := parseApples, exec := execApples,
    extract := fun nodes => .ok (nodes.map (fun n => (n.id, parseApples n.content))),
    search := fun _ _ => .ok (some "n1") }

/-- Environment of the paging scenario: a store whose page is the single
node `n1`, with intended-semantics stages whose matcher never reports a
match, so the search loop keeps paging. -/
def envPaging : GraphEnv :=
  { parse := parseSelf, exec := execSingle,
    extract := fun nodes => .ok (nodes.map (fun n => (n.id, parseSelf n.content))),
    search := fun _ _ => .ok none }

/-! Helper lemmas. -/

theorem foldl_min_le_init (l : List (List String)) :
    ∀ a : Nat, l.foldl (fun m k => min m k.length) a ≤ a := by
  induction l with
  | nil => intro a; exact Nat.le_refl a
  | cons k t ih =>
    intro a
    rw [List.foldl_cons]
    exact Nat.le_trans (ih (min a k.length)) (Nat.min_le_left _ _)

theorem foldl_min_le_mem (l : List (List String)) :
    ∀ (a : Nat) (x : List String), x ∈ l →
      l.foldl (fun m k => min m k.length) a ≤ x.length := by
  induction l with
  | nil => intro a x hx; cases hx
  | cons k t ih =>
    intro a x hx
    rw [List.foldl_cons]
    rcases List.mem_cons.mp hx with h | h
    · subst h
      exact Nat.le_trans (foldl_min_le_init t (min a x.length))
        (Nat.min_le_right _ _)
    · exact ih _ x h

theorem minLen_eq_zero (kw : List String) (rest : List (List String))
    (h : (kw :: rest).any (fun k => k.isEmpty) = true) :
    minLen (kw :: rest) = 0 := by
  rcases List.any_eq_true.mp h with ⟨x, hx, hxe⟩
  have hlen : x.length = 0 := by
    cases x with
    | nil => rfl
    | cons a t => simp at hxe
  have hle : minLen (kw :: rest) ≤ x.length := by
    rcases List.mem_cons.mp hx with h1 | h1
    · subst h1
      exact foldl_min_le_init rest x.length
    · exact foldl_min_le_mem rest kw.length x h1
  omega

theorem similarity_args_snd_none (t : Option (List String)) :
    kwds_similarity_args [t, none] = .error .typeError := by
  cases t <;> rfl

theorem pyGetContents_ok_ne_nil (n : Option Node) (rest : List (Option Node))
    (l : List String) (h : pyGetContents (n :: rest) = .ok l) : l ≠ [] := by
  unfold pyGetContents at h
  cases hn : pyGetContent n with
  | error e => rw [hn] at h; cases h
  | ok c =>
    rw [hn] at h
    cases hr : pyGetContents rest with
    | error e => rw [hr] at h; cases h
    | ok cs =>
      rw [hr] at h
      injection h with h2
      subst h2
      simp

theorem make_unrestricted_ne_nil (env : GraphEnv) (fuel : Nat)
    (request : String) (l : List String)
    (h : make_unrestricted_context env fuel request = some (.ok (some l))) :
    l ≠ [] := by
  unfold make_unrestricted_context at h
  split at h
  · simp at h
  · simp at h
  · simp at h
  · rename_i top
    split at h
    · simp at h
    · split at h
      · simp at h
      · rename_i ctx hrel
        split at h
        · simp at h
        · rename_i he
          split at h
          · simp at h
          · rename_i cs hg
            injection h with h1
            injection h1 with h2
            injection h2 with h3
            subst h3
            cases ctx with
            | nil => simp at he
            | cons n rest => exact pyGetContents_ok_ne_nil n rest _ hg

theorem getD_mem_of_lt (l : List (String × Option (List String))) (j : Nat)
    (d : String × Option (List String)) (h : j < l.length) :
    l.getD j d ∈ l := by
  induction l generalizing j with
  | nil => simp at h
  | cons a t ih =>
    cases j with
    | zero => exact List.mem_cons_self a t
    | succ k =>
      have hk : k < t.length := by simpa using h
      exact List.mem_cons_of_mem a (ih k hk)

theorem match_nodes_of_score (id : String) (a b : Option (List String))
    (s : Rat) (hs : kwds_similarity_args [a, b] = .ok s) :
    match_nodes id a b = .ok (if MATCH_THRESHOLD < s then some id else none) := by
  unfold match_nodes
  rw [hs]

theorem match_nodes_of_error (id : String) (a b : Option (List String))
    (e : PyError) (hs : kwds_similarity_args [a, b] = .error e) :
    match_nodes id a b = .error e := by
  unfold match_nodes
  rw [hs]

theorem parallel_search_go_none (target : Option (List String))
    (cands : List (String × Option (List String))) :
    ∀ perm : List Nat, (∀ j ∈ perm, j < cands.length) →
      (∀ c ∈ cands, ∃ s, kwds_similarity_args [target, c.2] = .ok s ∧
        s ≤ MATCH_THRESHOLD) →
      parallel_search_go target cands perm = .ok none := by
  intro perm
  induction perm with
  | nil => intro _ _; rfl
  | cons j rest ih =>
    intro hperm hle
    have hj : j < cands.length := hperm j (List.mem_cons_self j rest)
    obtain ⟨s, hs, hsle⟩ := hle _ (getD_mem_of_lt cands j ("", none) hj)
    unfold parallel_search_go
    rw [match_nodes_of_score _ _ _ s hs]
    rw [if_neg (not_lt.mpr hsle)]
    exact ih (fun k hk => hperm k (List.mem_cons_of_mem j hk)) hle

theorem parallel_search_go_some (target : Option (List String))
    (cands : List (String × Option (List String))) :
    ∀ (perm : List Nat) (m : String),
      parallel_search_go target cands perm = .ok (some m) →
      ∃ c ∈ cands, c.1 = m ∧ ∃ s,
        kwds_similarity_args [target, c.2] = .ok s ∧ MATCH_THRESHOLD < s := by
  intro perm
  induction perm with
  | nil => intro m h; cases h
  | cons j rest ih =>
    intro m h
    unfold parallel_search_go at h
    cases hs : kwds_similarity_args [target, (cands.getD j ("", none)).2] with
    | error e =>
      rw [match_nodes_of_error _ _ _ e hs] at h
      cases h
    | ok s =>
      rw [match_nodes_of_score _ _ _ s hs] at h
      by_cases hlt : MATCH_THRESHOLD < s
      · rw [if_pos hlt] at h
        injection h with h1
        injection h1 with h2
        by_cases hj : j < cands.length
        · exact ⟨cands.getD j ("", none), getD_mem_of_lt cands j _ hj,
            h2, s, hs, hlt⟩
        · have hge : cands.length ≤ j := Nat.le_of_not_lt hj
          rw [List.getD_eq_default] at hs
          · rw [similarity_args_snd_none] at hs
            cases hs
          · exact hge
      · rw [if_neg hlt] at h
        exact ih m h

/-! Claim theorems. -/

/-- C9: the similarity function never raises a division-by-zero error —
it answers a value for every input, the empty input list yields `0.0`,
and any input containing an empty keyword set yields `0.0`, so the
guarded division's error branch is unreachable. -/
theorem kwds_similarity_no_div_error (kwds : List (List String)) :
    (∃ s, kwds_similarity kwds = .ok s)
    ∧ (kwds = [] → kwds_similarity kwds = .ok 0)
    ∧ (kwds.any (fun kw => kw.isEmpty) = true →
        kwds_similarity kwds = .ok 0) := by
  cases kwds with
  | nil => exact ⟨⟨0, rfl⟩, fun _ => rfl, fun h => Bool.noConfusion h⟩
  | cons kw rest =>
    by_cases hmz : minLen (kw :: rest) = 0
    · have hval : kwds_similarity (kw :: rest) = .ok 0 := by
        simp [kwds_similarity, hmz]
      exact ⟨⟨0, hval⟩, fun h => absurd h (List.cons_ne_nil kw rest),
        fun _ => hval⟩
    · have hex : ∃ s, kwds_similarity (kw :: rest) = .ok s := by
        simp [kwds_similarity, hmz, pyDiv]
      refine ⟨hex, fun h => absurd h (List.cons_ne_nil kw rest),
        fun hany => ?_⟩
      exact absurd (minLen_eq_zero kw rest hany) hmz

/-- Witness for C9 at the concrete input `[{"a"}, {}]`. -/
theorem kwds_similarity_no_div_error_witness :
    kwds_similarity [["a"], []] = .ok 0 :=
  (kwds_similarity_no_div_error [["a"], []]).2.2 (by decide)

/-- C10: restricted mode with an empty restricted-word list is the
identity on the unrestricted result — for every environment, fuel and
request, `make_restricted_context env fuel request []` equals
`make_unrestricted_context env fuel request`: no string is dropped and a
non-empty context is never turned into `None`. -/
theorem restricted_empty_words_identity (env : GraphEnv) (fuel : Nat)
    (request : String) :
    make_restricted_context env fuel request [] =
      make_unrestricted_context env fuel request := by
  unfold make_restricted_context
  cases hu : make_unrestricted_context env fuel request with
  | none => rfl
  | some r =>
    cases r with
    | error e => rfl
    | ok o =>
      cases o with
      | none => rfl
      | some ctx =>
        have hne : ctx ≠ [] := make_unrestricted_ne_nil env fuel request ctx hu
        have he : ctx.isEmpty = false := by
          cases ctx with
          | nil => exact absurd rfl hne
          | cons a t => rfl
        simp [he]

/-- C8 (amended): past the broken memoization wrapper (which raises
`TypeError` on every call, see the caching defect), the matcher's search
logic over any completion order returns `None` when every candidate's
score is at most the code's fixed `MATCH_THRESHOLD` (a score exactly
equal to the threshold never matches), and any non-`None` result is the
id of a candidate whose score is strictly greater than the threshold. -/
theorem parallel_search_threshold_semantics (target : Option (List String))
    (cands : List (String × Option (List String))) (perm : List Nat)
    (hperm : ∀ j ∈ perm, j < cands.length) :
    ((∀ c ∈ cands, ∃ s, kwds_similarity_args [target, c.2] = .ok s ∧
        s ≤ MATCH_THRESHOLD) →
      parallel_search_body target cands perm = .ok none)
    ∧ (∀ m, parallel_search_body target cands perm = .ok (some m) →
      ∃ c ∈ cands, c.1 = m ∧ ∃ s,
        kwds_similarity_args [target, c.2] = .ok s ∧ MATCH_THRESHOLD < s) :=
  ⟨fun hle => parallel_search_go_none target cands perm hperm hle,
   fun m h => parallel_search_go_some target cands perm m h⟩

/-- Witness for C8's amended theorem at a concrete one-candidate input
whose score is `0 ≤ MATCH_THRESHOLD`. -/
theorem parallel_search_threshold_semantics_witness :
    (∀ j ∈ ([0] : List Nat),
      j < ([("n1", some ["b"])] :
        List (String × Option (List String))).length)
    ∧ (((∀ c ∈ ([("n1", some ["b"])] :
          List (String × Option (List String))), ∃ s,
          kwds_similarity_args [some ["a"], c.2] = .ok s ∧
            s ≤ MATCH_THRESHOLD) →
        parallel_search_body (some ["a"]) [("n1", some ["b"])] [0] = .ok none)
      ∧ (∀ m, parallel_search_body (some ["a"]) [("n1", some ["b"])] [0] =
          .ok (some m) →
        ∃ c ∈ ([("n1", some ["b"])] :
          List (String × Option (List String))), c.1 = m ∧ ∃ s,
          kwds_similarity_args [some ["a"], c.2] = .ok s ∧
            MATCH_THRESHOLD < s)) :=
  ⟨by decide,
   parallel_search_threshold_semantics (some ["a"]) [("n1", some ["b"])] [0]
     (by decide)⟩

/-- C8 (counterexample to the claim as stated): at a concrete input whose
single candidate scores `0 ≤ MATCH_THRESHOLD` (empty target keyword set,
so the score is `0.0` by the empty-set rule), the concurrent matcher as
called in the source does not return `None` — the `lru_cache` wrapper
raises `TypeError` before the search body runs. -/
theorem parallel_search_call_raises :
    parallel_search_call (some []) [("n1", some ["b"])] = .error .typeError
    ∧ kwds_similarity_args [some [], some ["b"]] = .ok 0 :=
  ⟨rfl, rfl⟩

theorem make_restricted_eq_of_unrestricted (env : GraphEnv) (fuel : Nat)
    (request : String) (words : List String) (ctx : List String)
    (h : make_unrestricted_context env fuel request = some (.ok (some ctx))) :
    make_restricted_context env fuel request words =
      (if ctx.isEmpty then some (.ok none)
       else if (ctx.filter (fun c =>
            !(words.any (fun word => pyIn word (pyLower c))))).isEmpty
         then some (.ok none)
         else some (.ok (some (ctx.filter (fun c =>
            !(words.any (fun word => pyIn word (pyLower c)))))))) := by
  unfold make_restricted_context
  rw [h]

/-- C7 (counterexample to the claim as stated): with restricted word
"Apple" and the single context string "I like apples", the string does
contain the restricted word as a case-insensitive substring, yet
restricted mode keeps it — the source lowercases only the content, not
the word. -/
theorem make_restricted_not_case_insensitive :
    make_restricted_context envApples 1 "req" ["Apple"] =
      some (.ok (some ["I like apples"]))
    ∧ pyIn (pyLower "Apple") (pyLower "I like apples") = true := by
  constructor
  · decide
  · decide

/-- C7 (amended): in restricted mode, given an unrestricted context, a
content string is dropped if and only if it contains some restricted word
VERBATIM as a substring of the lowercased content (the word itself is not
lowercased, so the match is case-insensitive only on the content side),
and `None` is returned exactly when no string survives. -/
theorem make_restricted_filter_semantics (env : GraphEnv) (fuel : Nat)
    (request : String) (words : List String) (ctx : List String)
    (h : make_unrestricted_context env fuel request = some (.ok (some ctx))) :
    (make_restricted_context env fuel request words = some (.ok none) ↔
      ∀ c ∈ ctx, (words.any (fun word => pyIn word (pyLower c))) = true)
    ∧ (∀ kept, make_restricted_context env fuel request words =
        some (.ok (some kept)) →
      ∀ c, c ∈ kept ↔ c ∈ ctx ∧
        (words.any (fun word => pyIn word (pyLower c))) = false) := by
  have hne : ctx ≠ [] := make_unrestricted_ne_nil env fuel request ctx h
  have he : ctx.isEmpty = false := by
    cases ctx with
    | nil => exact absurd rfl hne
    | cons a t => rfl
  rw [make_restricted_eq_of_unrestricted env fuel request words ctx h]
  rw [if_neg (by simp [he])]
  constructor
  · by_cases hk : (ctx.filter (fun c =>
        !(words.any (fun word => pyIn word (pyLower c))))).isEmpty
    · rw [if_pos hk]
      have hnil : ctx.filter (fun c =>
          !(words.any (fun word => pyIn word (pyLower c)))) = [] := by
        cases hfe : ctx.filter (fun c =>
            !(words.any (fun word => pyIn word (pyLower c)))) with
        | nil => rfl
        | cons a t => rw [hfe] at hk; cases hk
      have hall : ∀ c ∈ ctx,
          (words.any (fun word => pyIn word (pyLower c))) = true := by
        intro c hc
        have h2 := List.filter_eq_nil_iff.mp hnil c hc
        simpa using h2
      exact iff_of_true rfl hall
    · rw [if_neg hk]
      refine iff_of_false (by simp) ?_
      intro hall2
      have hne2 : ctx.filter (fun c =>
          !(words.any (fun word => pyIn word (pyLower c)))) ≠ [] := by
        intro hcontra
        rw [hcontra] at hk
        exact hk rfl
      obtain ⟨c, hc⟩ := List.exists_mem_of_ne_nil _ hne2
      have hcm := List.mem_filter.mp hc
      have hfalse : (words.any (fun word => pyIn word (pyLower c))) = false := by
        simpa using hcm.2
      rw [hall2 c hcm.1] at hfalse
      cases hfalse
  · intro kept hkept c
    by_cases hk : (ctx.filter (fun c =>
        !(words.any (fun word => pyIn word (pyLower c))))).isEmpty
    · rw [if_pos hk] at hkept
      simp at hkept
    · rw [if_neg hk] at hkept
      injection hkept with h1
      injection h1 with h2
      injection h2 with h3
      subst h3
      simp [List.mem_filter]

/-- Witness for C7's amended theorem at the concrete restricted-mode
scenario with restricted word "apple". -/
theorem make_restricted_filter_semantics_witness :
    make_unrestricted_context envApples 1 "req" =
      some (.ok (some ["I like apples"]))
    ∧ ((make_restricted_context envApples 1 "req" ["apple"] =
          some (.ok none) ↔
        ∀ c ∈ ["I like apples"],
          ((["apple"].any (fun word => pyIn word (pyLower c)))) = true)
      ∧ (∀ kept, make_restricted_context envApples 1 "req" ["apple"] =
          some (.ok (some kept)) →
        ∀ c, c ∈ kept ↔ c ∈ ["I like apples"] ∧
          ((["apple"].any (fun word => pyIn word (pyLower c)))) = false)) :=
  ⟨by decide,
   make_restricted_filter_semantics envApples 1 "req" ["apple"]
     ["I like apples"] (by decide)⟩

/-- C1: in filtered mode the per-document relevance filter does not keep
strings by pairwise similarity against `FILTER_THRESHOLD` — at any
request and non-empty context it raises `TypeError`, because line 286 of
`worker.py` calls the three-parameter `match_nodes` with only two
arguments. -/
theorem filter_context_by_relevance_raises :
    filter_context_by_relevance parseSelf "weather in New York"
      (some ["weather forecast New York"]) = .error .typeError := rfl

/-- C2: the anchor-search loop does not advance any offset between
rounds — on a store whose page is a single never-matching node, two
successive non-matching rounds submit the identical query string
(`fetch_most_recent_nodes` interpolates only the limit; the loop's
`offset` variable flows into nothing), so the second round re-reads the
same page instead of the next one. -/
theorem find_first_match_same_page_each_round :
    (find_first_match envPaging "req" 100 2).1 =
      [Submitor.fetch_most_recent_nodes 100,
       Submitor.fetch_most_recent_nodes 100] := rfl

/-- C3: the full-map extraction stage associates by index, not by id —
with nodes `a ↦ "x"`, `b ↦ "y"` and the completion order reversed, the
body pairs id `a` with the keywords of node `b` and vice versa (and the
memoized call layer in fact raises before this, see C5's theorem). -/
theorem parallel_extraction_misassociates :
    parallel_extraction_body parseSelf [⟨"a", "x"⟩, ⟨"b", "y"⟩] [1, 0] =
      [("a", some ["y"]), ("b", some ["x"])]
    ∧ parallel_extraction_body parseSelf [⟨"a", "x"⟩, ⟨"b", "y"⟩] [1, 0] ≠
      [("a", some ["x"]), ("b", some ["y"])] := by
  constructor
  · rfl
  · decide

/-- C4: when keyword extraction of the request yields `None` ("the of
and" minimizes to the empty string), the anchor search does not fail fast
with a `None` result — on a store with one node it proceeds into the loop
and raises `TypeError`. -/
theorem find_first_match_none_kwds_raises :
    Parser.parse nlpStop "the of and" = none
    ∧ (find_first_match (pyEnv (Parser.parse nlpStop) execSingle)
        "the of and" 100 3).2 = some (.error .typeError) := by
  constructor
  · rfl
  · rfl

/-- C5: the engine's memoized batch operations do not accept their
arguments — `cache_parse`'s string key passes the `lru_cache` hash step,
but `parallel_extraction` (raw node list) and `parallel_search` (raw
keyword list and dict) raise `TypeError` at the key-hashing step on every
input batch. -/
theorem memoized_batch_operations_raise :
    lru_cache_guard [PyKey.str "some text"] = .ok ()
    ∧ parallel_extraction_call [⟨"a", "x"⟩] = .error .typeError
    ∧ parallel_search_call (some ["k"]) [("a", some ["k"])] =
        .error .typeError :=
  ⟨rfl, rfl, rfl⟩

/-- C6: on a store state with no match (empty store), unrestricted and
restricted modes return `None`, but filtered mode raises `TypeError`
(iterating over the `None` context inside the relevance filter) instead
of returning `None`. -/
theorem context_modes_no_match :
    GraphManipulator.context (pyEnv parseSelf execEmptyStore) 1 "query"
      "unrestricted" [] = some (.ok none)
    ∧ GraphManipulator.context (pyEnv parseSelf execEmptyStore) 1 "query"
      "restricted" [] = some (.ok none)
    ∧ GraphManipulator.context (pyEnv parseSelf execEmptyStore) 1 "query"
      "filtered" [] = some (.error .typeError) := by
  refine ⟨?_, ?_, ?_⟩
  · rfl
  · rfl
  · rfl

/-- Supporting fact for the paging defect: in EVERY environment, every
query string the anchor-search loop ever submits is the same
`fetch_most_recent_nodes fetch_limit` — the advancing `offset` local
never reaches the store. -/
theorem find_first_match_trace_constant (env : GraphEnv)
    (target : Option (List String)) (fetch_limit : Nat) :
    ∀ (fuel offset : Nat) (trace : List String),
      trace.all
        (fun q => q == Submitor.fetch_most_recent_nodes fetch_limit) = true →
      ((find_first_match_go env target fetch_limit fuel offset trace).1).all
        (fun q => q == Submitor.fetch_most_recent_nodes fetch_limit) = true := by
  intro fuel
  induction fuel with
  | zero => intro offset trace ht; exact ht
  | succ n ih =>
    intro offset trace ht
    have ht2 : (trace ++ [Submitor.fetch_most_recent_nodes fetch_limit]).all
        (fun q => q == Submitor.fetch_most_recent_nodes fetch_limit) = true := by
      rw [List.all_append]
      simp [ht]
    unfold find_first_match_go
    split
    · exact ht2
    · exact ht2
    · split
      · exact ht2
      · split
        · exact ht2
        · split
          · exact ih _ _ ht2
          · exact ht2
        · exact ih _ _ ht2
